import Mathlib

/-!
Verification of the PyCircleSim core: a shallow embedding of the
agent scheduler (`src/framework/agents/base_agent.py`), the execution
context with its iteration cache (`src/framework/core/context.py`) and
the iteration driver (`src/framework/simulation/base.py`), together with
proofs of the behavioural properties stated in the specification.

Modelling conventions:
- Python dicts become association lists (`List (key × value)`); insertion
  keeps the position of an existing key and appends a fresh key, matching
  Python's insertion-ordered dicts.
- Python exceptions become `Except PyErr`; a method that catches all
  exceptions is total.
- `datetime.now().date().isoformat()` is passed in as an explicit `today`
  string; `time.time()` as an explicit `now` integer.
- `random.choice` / `random.choices` draws are modelled by oracle indices
  supplied by the caller (reduced modulo the choice-list length).
-/

/-- Python exception classes that the embedded code can raise. -/
inductive PyErr where
  | attributeError
  | typeError
  | other (msg : String)
deriving DecidableEq, Repr

/-- A Python value stored in a heterogeneous dict such as the `identifiers`
argument of `get_cache_key`. -/
inductive PyVal where
  | int (i : Int)
  | str (s : String)
  | rat (q : Rat)
deriving DecidableEq, Repr

/-- Lookup in a Python dict (association list): first binding wins. -/
def dictGet? {β : Type} : List (String × β) → String → Option β
  | [], _ => none
  | (k', v) :: rest, k => if k' = k then some v else dictGet? rest k

/-- Assignment `d[k] = v` on a Python dict: overwrite in place if the key is
present, append otherwise. -/
def dictSet {β : Type} : List (String × β) → String → β → List (String × β)
  | [], k, v => [(k, v)]
  | (k', v') :: rest, k, v =>
    if k' = k then (k, v) :: rest else (k', v') :: dictSet rest k v

/-- Deletion `del d[k]` on a Python dict. -/
def dictDel {β : Type} : List (String × β) → String → List (String × β)
  | [], _ => []
  | (k', v') :: rest, k => if k' = k then rest else (k', v') :: dictDel rest k

theorem dictGet?_dictSet_self {β : Type} (m : List (String × β)) (k : String) (v : β) :
    dictGet? (dictSet m k v) k = some v := by
  induction m with
  | nil => simp [dictGet?, dictSet]
  | cons hd tl ih =>
    obtain ⟨k', v'⟩ := hd
    by_cases h : k' = k <;> simp [dictGet?, dictSet, h, ih]

theorem dictGet?_dictSet_ne {β : Type} (m : List (String × β)) (k k' : String) (v : β)
    (h : k' ≠ k) : dictGet? (dictSet m k v) k' = dictGet? m k' := by
  have hk : k ≠ k' := Ne.symm h
  induction m with
  | nil => simp [dictGet?, dictSet, hk]
  | cons hd tl ih =>
    obtain ⟨k₀, v₀⟩ := hd
    by_cases h₀ : k₀ = k
    · subst h₀
      simp [dictGet?, dictSet, hk]
    · by_cases h₁ : k₀ = k' <;> simp [dictGet?, dictSet, h₀, h₁, ih, hk, h]

/-- Per-action configuration held by an agent profile.

Modelled from the spec: `ActionConfig` lives in
`src/framework/agents/profile.py`, which is not among the provided
sources; the spec lists a probability weight and a cooldown per action. -/
structure ActionConfig where
  probability : Rat
  cooldown_blocks : Int

/-- Modelled from the spec: `AgentProfile`
(`src/framework/agents/profile.py` is not among the provided sources).
The spec treats the profile as an opaque external collaborator exposing
`get_action_config`, `can_perform_action`, `max_daily_actions`,
`risk_tolerance` and `preset_addresses`; its two methods may raise, which
is modelled with `Except`. -/
structure AgentProfile where
  action_configs : List (String × ActionConfig)
  get_action_config : String → Except PyErr (Option ActionConfig)
  can_perform_action : String → Int → Int → Except PyErr Bool
  max_daily_actions : Int
  risk_tolerance : Rat
  preset_addresses : List String

/-- The `BalanceUpdate` dataclass of `base_agent.py` (timestamps are
modelled as integers). -/
structure BalanceUpdate where
  contract : String
  account : String
  balance : Int
  timestamp : Int
  block : Int
deriving DecidableEq, Repr

/-- The mutable state of a `BaseAgent`.  The Python `state` dict's two
ledger keys `balances-ERC20` and `balances-history` are flattened into the
fields `balancesERC20` and `balancesHistory`; private keys are opaque byte
lists. -/
structure BaseAgent where
  agent_id : String
  profile : AgentProfile
  accounts : List (String × List Nat)
  balancesERC20 : List (String × List (String × Int))
  balancesHistory : List BalanceUpdate
  last_actions : List (String × Int)
  daily_action_counts : List (String × Int)
  action_history : List (String × Int)

namespace BaseAgent

/-- `BaseAgent.record_action`: only a successful execution updates the
cooldown block, today's count and the history (`today` stands for
`datetime.now().date().isoformat()`). -/
def record_action (a : BaseAgent) (today : String) (action_name : String)
    (block_number : Int) (success : Bool) : BaseAgent :=
  if success then
    { a with
      last_actions := dictSet a.last_actions action_name block_number,
      daily_action_counts :=
        dictSet a.daily_action_counts today
          ((dictGet? a.daily_action_counts today).getD 0 + 1),
      action_history := a.action_history ++ [(action_name, block_number)] }
  else a

/-- `BaseAgent.update_balance`: skip foreign accounts, create the inner
dict when absent, and store (plus append to history) only when the balance
is positive or the `(account, contract)` pair already has an entry. -/
def update_balance (a : BaseAgent) (account contract : String) (balance : Int)
    (timestamp block : Int) : BaseAgent :=
  if (dictGet? a.accounts account).isNone then a
  else
    let bals :=
      if (dictGet? a.balancesERC20 account).isNone then
        dictSet a.balancesERC20 account []
      else a.balancesERC20
    let inner := (dictGet? bals account).getD []
    if 0 < balance ∨ (dictGet? inner contract).isSome then
      { a with
        balancesERC20 := dictSet bals account (dictSet inner contract balance),
        balancesHistory := a.balancesHistory ++
          [{ contract := contract, account := account, balance := balance,
             timestamp := timestamp, block := block }] }
    else
      { a with balancesERC20 := bals }

/-- `BaseAgent.get_last_balance`: `.get(account, {}).get(contract)`. -/
def get_last_balance (a : BaseAgent) (account contract : String) : Option Int :=
  dictGet? ((dictGet? a.balancesERC20 account).getD []) contract

/-- `BaseAgent.get_balance_history`: each filter is applied only when the
argument is truthy, i.e. neither `None` nor the empty string. -/
def get_balance_history (a : BaseAgent) (account contract : Option String) :
    List BalanceUpdate :=
  let history := a.balancesHistory
  let history :=
    match account with
    | some s => if s = "" then history else history.filter (fun h => h.account == s)
    | none => history
  let history :=
    match contract with
    | some s => if s = "" then history else history.filter (fun h => h.contract == s)
    | none => history
  history

/-- `BaseAgent.get_random_account`: `None` on an empty account dict, else a
random entry; the random draw is modelled by the oracle index `r`. -/
def get_random_account (a : BaseAgent) (r : Nat) : Option (String × List Nat) :=
  if a.accounts.isEmpty then none
  else a.accounts.get? (r % a.accounts.length)

/-- `BaseAgent._get_base_params`: empty dict when the profile has no config
for the action, else sender and risk tolerance.  Propagates any exception
of `profile.get_action_config`. -/
def get_base_params (a : BaseAgent) (action_name acting_address : String) :
    Except PyErr (List (String × PyVal)) := do
  let action ← a.profile.get_action_config action_name
  match action with
  | none => pure []
  | some _ =>
    pure [("sender", PyVal.str acting_address),
          ("risk_tolerance", PyVal.rat a.profile.risk_tolerance)]

/-- `BaseAgent.select_action`: reject when today's count has reached the
daily maximum, collect the eligible actions with their probability
weights, draw one (oracle index `r1` models `random.choices`), pick an
acting account (oracle index `r2` models `random.choice`) and assemble the
base parameters.  Exceptions of the profile's methods propagate. -/
def select_action (a : BaseAgent) (today : String) (current_block : Int)
    (network_state : List (String × PyVal)) (r1 r2 : Nat) :
    Except PyErr (Option String × String × List (String × PyVal)) :=
  if (dictGet? a.daily_action_counts today).getD 0 ≥ a.profile.max_daily_actions then
    pure (none, "", [])
  else do
    let available ← a.profile.action_configs.foldlM
      (fun acc p => do
        let last_block := (dictGet? a.last_actions p.1).getD 0
        let ok ← a.profile.can_perform_action p.1 current_block last_block
        pure (if ok then acc ++ [(p.1, p.2.probability)] else acc))
      ([] : List (String × Rat))
    if available.isEmpty then pure (none, "", [])
    else
      match (available.get? (r1 % available.length)).map Prod.fst with
      | none => pure (none, "", [])
      | some action_name =>
        match get_random_account a r2 with
        | none => pure (none, "", [])
        | some (acting_address, _) => do
          let params ← get_base_params a action_name acting_address
          pure (some action_name, acting_address, params)

/-- `BaseAgent.can_perform_action`: the whole body sits in a
`try`/`except` that converts any exception into `False`; the happy path
checks the profile's config and cooldown predicate. -/
def can_perform_action (a : BaseAgent) (action_name : String)
    (current_block : Int) (network_state : List (String × PyVal)) : Bool :=
  let body : Except PyErr Bool := do
    let action ← a.profile.get_action_config action_name
    match action with
    | none => pure false
    | some _ => do
      let last_action := (dictGet? a.last_actions action_name).getD 0
      let ok ← a.profile.can_perform_action action_name current_block last_action
      if ok then pure true else pure false
  match body with
  | Except.ok b => b
  | Except.error _ => false

end BaseAgent

/-- The `CacheEntry` dataclass of `context.py`: a value with the
`time.time()` timestamp at which it was stored. -/
structure CacheEntry (V : Type) where
  value : V
  timestamp : Int

/-- A Python object held in the `_cache` dict.  `get_cached` expects
`CacheEntry` objects while `get_or_cache` stores bare results, so the dict
is heterogeneous. -/
inductive CacheSlot (V : Type) where
  | entry (e : CacheEntry V)
  | raw (value : V)

/-- The fields a `SimulationContext` actually carries for caching: the
iteration number and the iteration cache shared by reference.  The
`cache_ttl` field records whether the attribute `self.cache_ttl` has ever
been assigned; nothing in the repository assigns it, and reading an
unassigned attribute raises `AttributeError`. -/
structure SimulationContext (V : Type) where
  iteration : Nat
  cache : List (String × CacheSlot V)
  cache_ttl : Option Int

namespace SimulationContext

/-- `SimulationContext.__init__`: stores the iteration number and the
shared iteration cache; it never assigns `cache_ttl`. -/
def init {V : Type} (iteration : Nat) (iteration_cache : List (String × CacheSlot V)) :
    SimulationContext V :=
  { iteration := iteration, cache := iteration_cache, cache_ttl := none }

/-- Python truthiness of a cached object: a `CacheEntry` dataclass
instance is always truthy; a bare value's truthiness is given by the
ambient `bool` function `tru`. -/
def slotTruthy {V : Type} (tru : V → Bool) : CacheSlot V → Bool
  | CacheSlot.entry _ => true
  | CacheSlot.raw v => tru v

/-- `SimulationContext.get_cached`: returns `None` on a missing or falsy
entry; otherwise it evaluates `time.time() - entry.timestamp >
self.cache_ttl`, which raises `AttributeError` when the stored object has
no `timestamp` or — as in this repository, where `cache_ttl` is never
assigned — when `self.cache_ttl` does not exist; within the TTL it returns
the value, beyond it it deletes the key and returns `None`. -/
def get_cached {V : Type} (tru : V → Bool) (c : SimulationContext V) (now : Int)
    (key : String) : Except PyErr (Option V × SimulationContext V) :=
  match dictGet? c.cache key with
  | none => Except.ok (none, c)
  | some slot =>
    if slotTruthy tru slot = false then Except.ok (none, c)
    else
      match slot with
      | CacheSlot.raw _ => Except.error PyErr.attributeError
      | CacheSlot.entry e =>
        match c.cache_ttl with
        | none => Except.error PyErr.attributeError
        | some ttl =>
          if now - e.timestamp > ttl then
            Except.ok (none, { c with cache := dictDel c.cache key })
          else Except.ok (some e.value, c)

/-- `SimulationContext.get_or_cache`: namespaces the key with the
iteration number, returns the stored object on a hit and otherwise runs
`generator_func` once and stores the result.  The final component counts
how many times `generator_func` was invoked during the call. -/
def get_or_cache {V : Type} (c : SimulationContext V) (key : String)
    (generator_func : Unit → V) : CacheSlot V × SimulationContext V × Nat :=
  let iteration_key := key ++ "_iter_" ++ Nat.repr c.iteration
  match dictGet? c.cache iteration_key with
  | some slot => (slot, c, 0)
  | none =>
    let result := generator_func ()
    (CacheSlot.raw result,
     { c with cache := dictSet c.cache iteration_key (CacheSlot.raw result) }, 1)

/-- `SimulationContext.get_cache_key`: the base key when no identifiers
are supplied, a 10-block bucket for a `block` identifier, an 8-character
prefix for an `agent_id` identifier, and the base key otherwise.  (The
method reads none of the context's fields.) -/
def get_cache_key (base_key : String) (identifiers : List (String × PyVal)) :
    Except PyErr String :=
  if identifiers.isEmpty then Except.ok base_key
  else
    match dictGet? identifiers "block" with
    | some (PyVal.int b) =>
      Except.ok (base_key ++ "_block_" ++ Int.repr (Int.fdiv b 10))
    | some _ => Except.error PyErr.typeError
    | none =>
      match dictGet? identifiers "agent_id" with
      | some (PyVal.str s) => Except.ok (base_key ++ "_agent_" ++ s.take 8)
      | some _ => Except.error PyErr.typeError
      | none => Except.ok base_key

end SimulationContext

/-- The per-iteration summary dict produced by `evolve_network` and
consumed by `_log_iteration_summary` and `get_statistics`. -/
structure IterationStats where
  total_actions : Int
  successful_actions : Int
  action_counts : List (String × Int)
deriving DecidableEq, Repr

namespace BaseSimulation

/-- The loop body of `BaseSimulation._run_iterations`: `remaining`
iterations are still to run and `idx` iterations have already completed.
`advance_time j` is the outcome of the time advancement attempted for
iteration `j` (1-based) and `evolve_network j` the summary it produces;
`stats` accumulates `self.iteration_stats`. -/
def run_iterations_loop (advance_time : Nat → Bool)
    (evolve_network : Nat → IterationStats) :
    Nat → Nat → List IterationStats → Bool × List IterationStats
  | 0, _, stats => (true, stats)
  | remaining + 1, idx, stats =>
    if advance_time (idx + 1) then
      run_iterations_loop advance_time evolve_network remaining (idx + 1)
        (stats ++ [evolve_network (idx + 1)])
    else (false, stats)

/-- `BaseSimulation._run_iterations` for a configured iteration count,
starting from an empty `iteration_stats` list. -/
def run_iterations (advance_time : Nat → Bool)
    (evolve_network : Nat → IterationStats) (iterations : Nat) :
    Bool × List IterationStats :=
  run_iterations_loop advance_time evolve_network iterations 0 []

/-- `BaseSimulation.run` in fast mode (no collector): builds the network,
then runs the iterations; a build failure or an iteration failure yields
`False`.  The returned list is the final `self.iteration_stats`. -/
def run (build_ok : Bool) (advance_time : Nat → Bool)
    (evolve_network : Nat → IterationStats) (iterations : Nat) :
    Bool × List IterationStats :=
  if build_ok then run_iterations advance_time evolve_network iterations
  else (false, [])

/-- The dict returned by `BaseSimulation.get_statistics`. -/
structure SimStatistics where
  duration : Int
  network_size : Int
  iterations_completed : Nat
  total_actions : Int
  successful_actions : Int
  current_block : Int
  action_counts : List (String × Int)

/-- `BaseSimulation.get_statistics`: aggregates `self.iteration_stats`;
duration, network size and chain head are environment inputs. -/
def get_statistics (iteration_stats : List IterationStats)
    (duration network_size current_block : Int) : SimStatistics :=
  { duration := duration,
    network_size := network_size,
    iterations_completed := iteration_stats.length,
    total_actions := (iteration_stats.map (fun s => s.total_actions)).sum,
    successful_actions := (iteration_stats.map (fun s => s.successful_actions)).sum,
    current_block := current_block,
    action_counts := iteration_stats.foldl
      (fun m s => s.action_counts.foldl
        (fun m2 kv => dictSet m2 kv.1 ((dictGet? m2 kv.1).getD 0 + kv.2)) m)
      [] }

end BaseSimulation

/-- The driver's gated use of `record_action`: one step per attempted
action, recording a success only when today's count is still below the
daily maximum — exactly the precondition `select_action`'s quota gate
establishes before an action can be selected at all. -/
def run_gated (today : String) : BaseAgent → List (String × Int) → BaseAgent
  | a, [] => a
  | a, s :: rest =>
    run_gated today
      (if (dictGet? a.daily_action_counts today).getD 0 < a.profile.max_daily_actions
       then BaseAgent.record_action a today s.1 s.2 true
       else a)
      rest

/-- Most-significant-first decimal digit characters of a natural number;
this is the list `Nat.toDigits 10` produces, re-stated as structural
recursion so that it can be reasoned about without fuel. -/
def sigDigits (n : Nat) : List Char :=
  if n < 10 then [Nat.digitChar n]
  else sigDigits (n / 10) ++ [Nat.digitChar (n % 10)]
termination_by n
decreasing_by exact Nat.div_lt_self (by omega) (by omega)

theorem sigDigits_lt {n : Nat} (h : n < 10) : sigDigits n = [Nat.digitChar n] := by
  rw [sigDigits]
  simp [h]

theorem sigDigits_ge {n : Nat} (h : ¬ n < 10) :
    sigDigits n = sigDigits (n / 10) ++ [Nat.digitChar (n % 10)] := by
  conv_lhs => rw [sigDigits]
  simp [h]

theorem sigDigits_ne_nil (n : Nat) : sigDigits n ≠ [] := by
  by_cases h : n < 10
  · rw [sigDigits_lt h]; simp
  · rw [sigDigits_ge h]; simp

theorem toDigitsCore_eq_sigDigits :
    ∀ (fuel n : Nat) (ds : List Char), n < fuel →
      Nat.toDigitsCore 10 fuel n ds = sigDigits n ++ ds := by
  intro fuel
  induction fuel with
  | zero => intro n ds h; omega
  | succ f ih =>
    intro n ds h
    by_cases h10 : n / 10 = 0
    · have hn : n < 10 := by omega
      simp [Nat.toDigitsCore, h10, sigDigits_lt hn, Nat.mod_eq_of_lt hn]
    · have hn : ¬ n < 10 := by omega
      have hlt : n / 10 < f := by omega
      simp only [Nat.toDigitsCore, h10, if_false]
      rw [ih (n / 10) (Nat.digitChar (n % 10) :: ds) hlt, sigDigits_ge hn]
      simp

theorem digitChar_inj_lt (a b : Nat) (ha : a < 10) (hb : b < 10) :
    Nat.digitChar a = Nat.digitChar b → a = b := by
  interval_cases a <;> interval_cases b <;> decide

theorem sigDigits_inj : ∀ (m n : Nat), sigDigits m = sigDigits n → m = n := by
  intro m
  induction m using Nat.strong_induction_on with
  | _ m ih =>
    intro n h
    by_cases hm : m < 10 <;> by_cases hn : n < 10
    · rw [sigDigits_lt hm, sigDigits_lt hn] at h
      simp at h
      exact digitChar_inj_lt m n hm hn h
    · rw [sigDigits_lt hm, sigDigits_ge hn] at h
      have hlen := congrArg List.length h
      have h0 : (sigDigits (n / 10)).length ≠ 0 := by
        simpa [List.length_eq_zero] using sigDigits_ne_nil (n / 10)
      simp only [List.length_append, List.length_cons, List.length_nil] at hlen
      omega
    · rw [sigDigits_ge hm, sigDigits_lt hn] at h
      have hlen := congrArg List.length h
      have h0 : (sigDigits (m / 10)).length ≠ 0 := by
        simpa [List.length_eq_zero] using sigDigits_ne_nil (m / 10)
      simp only [List.length_append, List.length_cons, List.length_nil] at hlen
      omega
    · rw [sigDigits_ge hm, sigDigits_ge hn] at h
      obtain ⟨h1, h2⟩ := List.append_inj' h (by simp)
      simp at h2
      have hmod : m % 10 = n % 10 :=
        digitChar_inj_lt _ _ (Nat.mod_lt _ (by omega)) (Nat.mod_lt _ (by omega)) h2
      have hdiv : m / 10 = n / 10 := ih (m / 10) (by omega) (n / 10) h1
      omega

theorem nat_repr_injective (m n : Nat) (h : Nat.repr m = Nat.repr n) : m = n := by
  apply sigDigits_inj
  have hm : Nat.toDigits 10 m = sigDigits m := by
    simpa [Nat.toDigits] using toDigitsCore_eq_sigDigits (m + 1) m [] (Nat.lt_succ_self m)
  have hn : Nat.toDigits 10 n = sigDigits n := by
    simpa [Nat.toDigits] using toDigitsCore_eq_sigDigits (n + 1) n [] (Nat.lt_succ_self n)
  have h2 : (Nat.toDigits 10 m).asString = (Nat.toDigits 10 n).asString := h
  rw [hm, hn] at h2
  exact congrArg String.data h2

theorem string_append_right_ne (s : String) {a b : String} (h : a ≠ b) :
    s ++ a ≠ s ++ b := by
  intro he
  apply h
  apply String.ext
  have hd := congrArg String.data he
  rw [String.data_append, String.data_append] at hd
  exact List.append_cancel_left hd

theorem iteration_key_ne (key : String) {i j : Nat} (h : i ≠ j) :
    key ++ "_iter_" ++ Nat.repr i ≠ key ++ "_iter_" ++ Nat.repr j :=
  string_append_right_ne (key ++ "_iter_") fun he => h (nat_repr_injective i j he)

/-- A profile with a daily quota of 2 and one always-eligible action. -/
def quotaProfile : AgentProfile :=
  { action_configs := [("trust", { probability := 1, cooldown_blocks := 0 })],
    get_action_config := fun name =>
      Except.ok (if name = "trust"
        then some { probability := 1, cooldown_blocks := 0 } else none),
    can_perform_action := fun _ _ _ => Except.ok true,
    max_daily_actions := 2,
    risk_tolerance := 0,
    preset_addresses := ["0xaaaa"] }

/-- An agent controlling one address, with fresh rate-limit and ledger state. -/
def agentA : BaseAgent :=
  { agent_id := "agent-a", profile := quotaProfile,
    accounts := [("0xaaaa", [])],
    balancesERC20 := [], balancesHistory := [],
    last_actions := [], daily_action_counts := [], action_history := [] }

/-- The agent of `agentA` after a prior nonzero balance was recorded for
the pair `("0xaaaa", "CRC")`. -/
def agentB : BaseAgent :=
  { agentA with
    balancesERC20 := [("0xaaaa", [("CRC", 5)])],
    balancesHistory := [{ contract := "CRC", account := "0xaaaa", balance := 5,
                          timestamp := 1, block := 10 }] }

/-- C1 fails as stated: `record_action` enforces no cap, so three
successful recordings against a daily quota of 2 push today's count to 3,
exceeding `max_daily_actions`. -/
theorem record_action_unbounded_cex :
    ¬ ((dictGet? (BaseAgent.record_action
          (BaseAgent.record_action
            (BaseAgent.record_action agentA "2026-10-12" "trust" 1 true)
            "2026-10-12" "trust" 2 true)
          "2026-10-12" "trust" 3 true).daily_action_counts
          "2026-10-12").getD 0
        ≤ agentA.profile.max_daily_actions) := by decide

/-- C1 (amended): today's count never exceeds `max_daily_actions` across
any sequence of driver steps in which a success is recorded only while
the count is still below the quota — the precondition established by
`select_action`'s daily-limit gate.  `record_action` itself enforces no
cap. -/
theorem record_action_gated_bounded (today : String) (a : BaseAgent)
    (steps : List (String × Int))
    (h : (dictGet? a.daily_action_counts today).getD 0
      ≤ a.profile.max_daily_actions) :
    (dictGet? (run_gated today a steps).daily_action_counts today).getD 0
      ≤ a.profile.max_daily_actions := by
  induction steps generalizing a with
  | nil => simpa [run_gated] using h
  | cons s rest ih =>
    rw [run_gated]
    by_cases hgate :
        (dictGet? a.daily_action_counts today).getD 0 < a.profile.max_daily_actions
    · rw [if_pos hgate]
      have h' : (dictGet? (BaseAgent.record_action a today s.1 s.2
              true).daily_action_counts today).getD 0
          ≤ (BaseAgent.record_action a today s.1 s.2 true).profile.max_daily_actions := by
        simp [BaseAgent.record_action, dictGet?_dictSet_self]
        omega
      simpa [BaseAgent.record_action] using ih _ h'
    · rw [if_neg hgate]
      exact ih a h

/-- C1 witness: three gated steps against a quota of 2 stay within the
quota. -/
theorem record_action_gated_bounded_witness :
    (dictGet? (run_gated "2026-10-12" agentA
        [("trust", 1), ("trust", 2), ("trust", 3)]).daily_action_counts
        "2026-10-12").getD 0 ≤ agentA.profile.max_daily_actions :=
  record_action_gated_bounded "2026-10-12" agentA
    [("trust", 1), ("trust", 2), ("trust", 3)] (by decide)

/-- C2 fails as stated: a zero-balance call for a pair with no prior entry
does leave the history unchanged but still mutates the current-balances
mapping, inserting an empty per-account dict. -/
theorem update_balance_zero_fresh_cex :
    ¬ ((BaseAgent.update_balance agentA "0xaaaa" "CRC" 0 7 100).balancesERC20
          = agentA.balancesERC20 ∧
       (BaseAgent.update_balance agentA "0xaaaa" "CRC" 0 7 100).balancesHistory
          = agentA.balancesHistory) := by decide

/-- C2 (amended): for an agent controlling the account, a zero-balance
update for a pair with no prior entry leaves the history unchanged and
every pair's recorded balance unchanged (only an empty per-account dict
may be created in the mapping); the same call when the pair has a prior
entry sets the pair's current balance to 0 and appends the record to
history. -/
theorem update_balance_zero_amended (a : BaseAgent) (account contract : String)
    (t blk : Int) (hacct : (dictGet? a.accounts account).isSome) :
    (BaseAgent.get_last_balance a account contract = none →
      (BaseAgent.update_balance a account contract 0 t blk).balancesHistory
        = a.balancesHistory ∧
      ∀ acc ctr, BaseAgent.get_last_balance
          (BaseAgent.update_balance a account contract 0 t blk) acc ctr
        = BaseAgent.get_last_balance a acc ctr) ∧
    (BaseAgent.get_last_balance a account contract ≠ none →
      BaseAgent.get_last_balance
          (BaseAgent.update_balance a account contract 0 t blk) account contract
        = some 0 ∧
      (BaseAgent.update_balance a account contract 0 t blk).balancesHistory
        = a.balancesHistory ++
          [{ contract := contract, account := account, balance := 0,
             timestamp := t, block := blk }]) := by
  cases hx : dictGet? a.accounts account with
  | none => rw [hx] at hacct; simp at hacct
  | some pk =>
    cases hB : dictGet? a.balancesERC20 account with
    | none =>
      constructor
      · intro _
        constructor
        · simp [BaseAgent.update_balance, hx, hB, dictGet?_dictSet_self, dictGet?]
        · intro acc ctr
          by_cases hacc : acc = account
          · subst hacc
            simp [BaseAgent.update_balance, BaseAgent.get_last_balance, hx, hB,
                  dictGet?_dictSet_self, dictGet?]
          · simp [BaseAgent.update_balance, BaseAgent.get_last_balance, hx, hB,
                  dictGet?_dictSet_self, dictGet?,
                  dictGet?_dictSet_ne _ _ _ _ hacc]
      · intro hne
        exact absurd (by simp [BaseAgent.get_last_balance, hB, dictGet?]) hne
    | some inner =>
      cases hI : dictGet? inner contract with
      | none =>
        constructor
        · intro _
          constructor
          · simp [BaseAgent.update_balance, hx, hB, hI]
          · intro acc ctr
            simp [BaseAgent.update_balance, BaseAgent.get_last_balance, hx, hB, hI]
        · intro hne
          exact absurd (by simp [BaseAgent.get_last_balance, hB, hI]) hne
      | some v =>
        constructor
        · intro hglb
          rw [BaseAgent.get_last_balance, hB] at hglb
          simp [hI] at hglb
        · intro _
          constructor
          · simp [BaseAgent.update_balance, BaseAgent.get_last_balance, hx, hB, hI,
                  dictGet?_dictSet_self]
          · simp [BaseAgent.update_balance, hx, hB, hI]

/-- C2 witness: a fresh pair's zero write leaves the history alone, while
a pair with a prior entry is updated to balance 0. -/
theorem update_balance_zero_amended_witness :
    (BaseAgent.update_balance agentA "0xaaaa" "CRC" 0 7 100).balancesHistory
        = agentA.balancesHistory ∧
    BaseAgent.get_last_balance
        (BaseAgent.update_balance agentB "0xaaaa" "CRC" 0 7 100) "0xaaaa" "CRC"
      = some 0 :=
  ⟨((update_balance_zero_amended agentA "0xaaaa" "CRC" 7 100 (by decide)).1
      (by decide)).1,
   ((update_balance_zero_amended agentB "0xaaaa" "CRC" 7 100 (by decide)).2
      (by decide)).1⟩

/-- A context built by `__init__` whose iteration cache holds one valid
`CacheEntry` under the key `"balances"`. -/
def ctxBug : SimulationContext Int :=
  SimulationContext.init 1
    [("balances", CacheSlot.entry { value := 42, timestamp := 100 })]

/-- C3: the code contradicts the claim.  `get_cached` on a key whose
entry exists raises `AttributeError` instead of returning the value,
because `self.cache_ttl` is read but never assigned anywhere in the
repository. -/
theorem get_cached_raises_attribute_error :
    SimulationContext.get_cached (fun _ => true) ctxBug 100 "balances"
      = Except.error PyErr.attributeError := rfl

/-- C4: a failed action recording leaves the whole agent — in particular
`last_actions`, `daily_action_counts` and `action_history` — unchanged. -/
theorem record_action_failure_no_mutation (a : BaseAgent)
    (today action_name : String) (block_number : Int) :
    BaseAgent.record_action a today action_name block_number false = a := rfl

/-- C5: a second `get_or_cache` with the same key in the same iteration
performs no further computation and returns the first call's result;
re-running with the same base key under a different iteration number
computes once more, because the stored key is namespaced by the iteration
number. -/
theorem get_or_cache_compute_once (V : Type) (c : List (String × CacheSlot V))
    (i j : Nat) (key : String) (f : Unit → V)
    (hi : dictGet? c (key ++ "_iter_" ++ Nat.repr i) = none)
    (hj : dictGet? c (key ++ "_iter_" ++ Nat.repr j) = none)
    (hij : i ≠ j) :
    (SimulationContext.get_or_cache (SimulationContext.init i c) key f).2.2 = 1 ∧
    (SimulationContext.get_or_cache
        (SimulationContext.get_or_cache (SimulationContext.init i c) key f).2.1
        key f).2.2 = 0 ∧
    (SimulationContext.get_or_cache
        (SimulationContext.get_or_cache (SimulationContext.init i c) key f).2.1
        key f).1
      = (SimulationContext.get_or_cache (SimulationContext.init i c) key f).1 ∧
    (SimulationContext.get_or_cache
        (SimulationContext.init j
          (SimulationContext.get_or_cache (SimulationContext.init i c) key f).2.1.cache)
        key f).2.2 = 1 := by
  have hne : (key ++ "_iter_" ++ Nat.repr j) ≠ (key ++ "_iter_" ++ Nat.repr i) :=
    iteration_key_ne key (Ne.symm hij)
  refine ⟨?_, ?_, ?_, ?_⟩ <;>
    simp [SimulationContext.get_or_cache, SimulationContext.init, hi, hj,
          dictGet?_dictSet_self, dictGet?_dictSet_ne _ _ _ _ hne]

/-- C5 witness: key `"k"` computed in iteration 0, hit again in iteration
0, recomputed once in iteration 1. -/
theorem get_or_cache_compute_once_witness :
    (SimulationContext.get_or_cache
        (SimulationContext.init 0 ([] : List (String × CacheSlot Nat)))
        "k" (fun _ => 7)).2.2 = 1 ∧
    (SimulationContext.get_or_cache
        (SimulationContext.get_or_cache
          (SimulationContext.init 0 ([] : List (String × CacheSlot Nat)))
          "k" (fun _ => 7)).2.1
        "k" (fun _ => 7)).2.2 = 0 ∧
    (SimulationContext.get_or_cache
        (SimulationContext.get_or_cache
          (SimulationContext.init 0 ([] : List (String × CacheSlot Nat)))
          "k" (fun _ => 7)).2.1
        "k" (fun _ => 7)).1
      = (SimulationContext.get_or_cache
          (SimulationContext.init 0 ([] : List (String × CacheSlot Nat)))
          "k" (fun _ => 7)).1 ∧
    (SimulationContext.get_or_cache
        (SimulationContext.init 1
          (SimulationContext.get_or_cache
            (SimulationContext.init 0 ([] : List (String × CacheSlot Nat)))
            "k" (fun _ => 7)).2.1.cache)
        "k" (fun _ => 7)).2.2 = 1 :=
  get_or_cache_compute_once Nat [] 0 1 "k" (fun _ => 7) rfl rfl (by decide)

/-- C6: cache keys bucket block numbers into ranges of width 10 — blocks
23 and 27 share a key, block 31 gets a different one — and with no
identifiers the base key is returned unchanged. -/
theorem get_cache_key_block_bucket (base_key : String) :
    SimulationContext.get_cache_key base_key [("block", PyVal.int 23)]
      = SimulationContext.get_cache_key base_key [("block", PyVal.int 27)] ∧
    SimulationContext.get_cache_key base_key [("block", PyVal.int 31)]
      ≠ SimulationContext.get_cache_key base_key [("block", PyVal.int 23)] ∧
    SimulationContext.get_cache_key base_key [] = Except.ok base_key := by
  refine ⟨rfl, ?_, rfl⟩
  intro h
  have h2 : (Except.ok (base_key ++ "_block_" ++ "3") : Except PyErr String)
      = Except.ok (base_key ++ "_block_" ++ "2") := h
  have h3 : base_key ++ "_block_" ++ "3" = base_key ++ "_block_" ++ "2" := by
    injection h2
  exact string_append_right_ne (base_key ++ "_block_") (by decide) h3

/-- C7: once today's recorded count has reached the agent's daily
maximum, `select_action` returns no action, whatever the eligible set,
the oracle draws or the network state. -/
theorem select_action_quota_exhausted (a : BaseAgent) (today : String)
    (current_block : Int) (network_state : List (String × PyVal)) (r1 r2 : Nat)
    (h : a.profile.max_daily_actions
      ≤ (dictGet? a.daily_action_counts today).getD 0) :
    BaseAgent.select_action a today current_block network_state r1 r2
      = Except.ok (none, "", []) := by
  unfold BaseAgent.select_action
  rw [if_pos h]
  rfl

/-- C7 witness: the agent with quota 2 that succeeded twice today gets no
action on a third selection. -/
theorem select_action_quota_exhausted_witness :
    BaseAgent.select_action
        (BaseAgent.record_action
          (BaseAgent.record_action agentA "2026-10-12" "trust" 11 true)
          "2026-10-12" "trust" 12 true)
        "2026-10-12" 13 [] 0 0
      = Except.ok (none, "", []) :=
  select_action_quota_exhausted
    (BaseAgent.record_action
      (BaseAgent.record_action agentA "2026-10-12" "trust" 11 true)
      "2026-10-12" "trust" 12 true)
    "2026-10-12" 13 [] 0 0 (by decide)

theorem run_iterations_loop_fail (advance_time : Nat → Bool)
    (evolve_network : Nat → IterationStats) :
    ∀ (remaining idx : Nat) (stats : List IterationStats) (i : Nat),
      idx < i → i ≤ idx + remaining →
      (∀ j, j < i - 1 → advance_time (j + 1) = true) →
      advance_time i = false →
      BaseSimulation.run_iterations_loop advance_time evolve_network remaining idx stats
        = (false, stats ++ (List.range (i - 1 - idx)).map
            (fun k => evolve_network (idx + k + 1))) := by
  intro remaining
  induction remaining with
  | zero => intro idx stats i h1 h2 _ _; omega
  | succ rem ih =>
    intro idx stats i h1 h2 hpre hfail
    by_cases hi : i = idx + 1
    · subst hi
      rw [BaseSimulation.run_iterations_loop, if_neg (by simp [hfail])]
      have h0 : idx + 1 - 1 - idx = 0 := by omega
      simp [h0]
    · have hadv : advance_time (idx + 1) = true := hpre idx (by omega)
      rw [BaseSimulation.run_iterations_loop, if_pos hadv]
      rw [ih (idx + 1) (stats ++ [evolve_network (idx + 1)]) i (by omega) (by omega)
            hpre hfail]
      rw [List.append_assoc]
      have hm : i - 1 - idx = (i - 1 - (idx + 1)) + 1 := by omega
      rw [hm, List.range_succ_eq_map, List.map_cons, List.map_map]
      have hfun : (fun k => evolve_network (idx + 1 + k + 1))
          = ((fun k => evolve_network (idx + k + 1)) ∘ Nat.succ) := by
        funext k
        simp [Function.comp]
        congr 1
        omega
      rw [hfun]
      simp

/-- C8: when time advancement fails at iteration `i` of `iterations`, the
run returns `False`, iterations `i`, `i+1`, … are never executed, and the
iteration-statistics list holds exactly the summaries of iterations `1`
to `i-1`, which the statistics accessor still reports. -/
theorem run_halts_on_advance_failure (iterations i : Nat)
    (advance_time : Nat → Bool) (evolve_network : Nat → IterationStats)
    (duration network_size current_block : Int)
    (h1 : 1 ≤ i) (h2 : i ≤ iterations)
    (hpre : ∀ j, j < i - 1 → advance_time (j + 1) = true)
    (hfail : advance_time i = false) :
    BaseSimulation.run true advance_time evolve_network iterations
      = (false, (List.range (i - 1)).map (fun k => evolve_network (k + 1))) ∧
    (BaseSimulation.get_statistics
        ((List.range (i - 1)).map (fun k => evolve_network (k + 1)))
        duration network_size current_block).iterations_completed = i - 1 := by
  constructor
  · have hloop := run_iterations_loop_fail advance_time evolve_network iterations 0 []
      i (by omega) (by omega) hpre hfail
    simpa [BaseSimulation.run, BaseSimulation.run_iterations] using hloop
  · simp [BaseSimulation.get_statistics]

/-- The advance-time oracle of the C8 witness: succeeds except at
iteration 3. -/
def advW : Nat → Bool := fun j => j != 3

/-- The evolve-network oracle of the C8 witness. -/
def evW : Nat → IterationStats :=
  fun j => { total_actions := j, successful_actions := j, action_counts := [] }

/-- C8 witness: iteration 3 of 5 fails, the run reports failure, and the
statistics of iterations 1 and 2 remain. -/
theorem run_halts_on_advance_failure_witness :
    BaseSimulation.run true advW evW 5
      = (false, (List.range 2).map (fun k => evW (k + 1))) ∧
    (BaseSimulation.get_statistics ((List.range 2).map (fun k => evW (k + 1)))
        9 20 500).iterations_completed = 2 :=
  run_halts_on_advance_failure 5 3 advW evW 9 20 500 (by decide) (by decide)
    (by decide) (by decide)

/-- C9: `can_perform_action` converts an exception raised by the
profile's config lookup, or by its eligibility predicate, into the
result `False` instead of propagating it. -/
theorem can_perform_action_catches_errors (a : BaseAgent) (action_name : String)
    (current_block : Int) (network_state : List (String × PyVal)) :
    (∀ e, a.profile.get_action_config action_name = Except.error e →
      BaseAgent.can_perform_action a action_name current_block network_state
        = false) ∧
    (∀ cfg e, a.profile.get_action_config action_name = Except.ok (some cfg) →
      a.profile.can_perform_action action_name current_block
          ((dictGet? a.last_actions action_name).getD 0) = Except.error e →
      BaseAgent.can_perform_action a action_name current_block network_state
        = false) := by
  constructor
  · intro e he
    simp only [BaseAgent.can_perform_action, he]
    rfl
  · intro cfg e hc hp
    simp only [BaseAgent.can_perform_action, hc, hp]
    rfl

/-- The profile of `agentA` whose config lookup raises. -/
def errProfile1 : AgentProfile :=
  { quotaProfile with
    get_action_config := fun _ => Except.error (PyErr.other "boom") }

/-- The profile of `agentA` whose eligibility predicate raises. -/
def errProfile2 : AgentProfile :=
  { quotaProfile with
    get_action_config := fun _ =>
      Except.ok (some { probability := 1, cooldown_blocks := 0 }),
    can_perform_action := fun _ _ _ => Except.error (PyErr.other "net") }

/-- C9 witness: both kinds of profile exception yield `False`. -/
theorem can_perform_action_catches_errors_witness :
    BaseAgent.can_perform_action { agentA with profile := errProfile1 }
        "trust" 5 [] = false ∧
    BaseAgent.can_perform_action { agentA with profile := errProfile2 }
        "trust" 5 [] = false :=
  ⟨(can_perform_action_catches_errors { agentA with profile := errProfile1 }
      "trust" 5 []).1 (PyErr.other "boom") rfl,
   (can_perform_action_catches_errors { agentA with profile := errProfile2 }
      "trust" 5 []).2 { probability := 1, cooldown_blocks := 0 }
      (PyErr.other "net") rfl rfl⟩

/-- A Python-truthiness-gated filter stage of `get_balance_history` is a
sublist of its input. -/
theorem pyFilter_sublist {α : Type} (l : List α) (o : Option String)
    (f : α → String) :
    (match o with
     | some s => if s = "" then l else l.filter (fun x => f x == s)
     | none => l).Sublist l := by
  match o with
  | none => exact List.Sublist.refl l
  | some s =>
    by_cases hs : s = "" <;> simp [hs]

/-- C10: an empty-string filter is falsy and therefore ignored — the call
returns exactly what the unfiltered call returns — and applied filters
preserve recording order: the result is always a sublist of the
history. -/
theorem get_balance_history_truthy_filters (a : BaseAgent) :
    (∀ contract, BaseAgent.get_balance_history a (some "") contract
        = BaseAgent.get_balance_history a none contract) ∧
    (∀ account, BaseAgent.get_balance_history a account (some "")
        = BaseAgent.get_balance_history a account none) ∧
    (∀ account contract,
        (BaseAgent.get_balance_history a account contract).Sublist
          a.balancesHistory) := by
  refine ⟨fun contract => rfl, fun account => ?_, fun account contract => ?_⟩
  · cases account with
    | none => rfl
    | some s => rfl
  · simp only [BaseAgent.get_balance_history]
    exact List.Sublist.trans
      (pyFilter_sublist
        (match account with
         | some s => if s = "" then a.balancesHistory
             else a.balancesHistory.filter (fun h => h.account == s)
         | none => a.balancesHistory)
        contract (fun h : BalanceUpdate => h.contract))
      (pyFilter_sublist a.balancesHistory account
        (fun h : BalanceUpdate => h.account))
